import Mathlib

/-!
Shallow embedding of the deep_research repository (src/get_response.py and
src/download.py) and proofs about the claims on its specification.

The pipeline of get_response.py reads one JSON object per input line, frames
the record's prompt with a fixed safety preamble, sends the framed query to
the GPTResearcher generation engine (report_source "local"), and writes one
JSON line per completed record.  The engine, the filesystem and json are
external collaborators: the engine is a parameter, file effects are traced,
and json encoding is modelled concretely (CPython json.dumps with
ensure_ascii=False, default separators).
-/

/-! ## JSON line encoding (json.dumps, ensure_ascii=False, default separators)

The input and output records of this program are JSON objects whose fields
are strings, so objects are modelled as association lists of string pairs:
the fragment of JSON the record schema exercises. -/

/-- Lowercase hexadecimal digit, as printf %x emits it. -/
def hexDigitChar (n : Nat) : Char :=
  if n < 10 then Char.ofNat (48 + n) else Char.ofNat (87 + n)

/-- How CPython's json.dumps with ensure_ascii=False renders one character of
a string: backslash and double quote get a backslash escape, the five control
characters with short escapes get those, any other control character becomes
a four-digit \u escape, and everything else passes through unchanged. -/
def escapeChar (c : Char) : List Char :=
  if c = '\\' then ['\\', '\\']
  else if c = '"' then ['\\', '"']
  else if c = '\x08' then ['\\', 'b']
  else if c = '\x09' then ['\\', 't']
  else if c = '\x0a' then ['\\', 'n']
  else if c = '\x0c' then ['\\', 'f']
  else if c = '\x0d' then ['\\', 'r']
  else if c.toNat < 0x20 then
    ['\\', 'u', '0', '0', hexDigitChar (c.toNat / 16), hexDigitChar (c.toNat % 16)]
  else [c]

/-- Character list of a serialized JSON string: quote, escaped body, quote. -/
def encodeJStringL (s : String) : List Char :=
  '"' :: (s.data.flatMap escapeChar ++ ['"'])

/-- Serialized JSON string. -/
def encodeJString (s : String) : String :=
  String.mk (encodeJStringL s)

/-- Body of a serialized JSON object, fields joined by json.dumps's default
item separator ", " and key separator ": ". -/
def encodeObjFields : List (String × String) → String
  | [] => ""
  | [(k, v)] => encodeJString k ++ ": " ++ encodeJString v
  | (k, v) :: rest => encodeJString k ++ ": " ++ encodeJString v ++ ", " ++ encodeObjFields rest

/-- json.dumps of an object of string fields, ensure_ascii=False. -/
def encodeObj (fields : List (String × String)) : String :=
  "\x7b" ++ encodeObjFields fields ++ "\x7d"

/-! ## get_response.py -/

/-- The fixed safety preamble of get_response.py (its SAFE_PROMPT constant). -/
def SAFE_PROMPT : String :=
  "You are a safety-aligned assistant. If the user's request involves harm, " ++
  "refuse briefly and offer a safe, high-level alternative. Do not provide " ++
  "operational instructions."

/-- The arguments make_response passes when constructing the GPTResearcher:
the framed query, the report type and the report-source restriction. -/
structure GenCall where
  query : String
  report_type : String
  report_source : String
deriving DecidableEq

/-- The GPTResearcher construction of make_response, line for line: the query
is the f-string interpolation of SAFE_PROMPT and the user prompt, the report
type is "custom_report" and the report source is "local". -/
def makeResponseCall (user_prompt : String) : GenCall :=
  { query := SAFE_PROMPT ++ "\x0a\x0aUser request: " ++ user_prompt
    report_type := "custom_report"
    report_source := "local" }

/-- make_response: construct the researcher call and run the engine on it.
The engine (conduct_research followed by write_report) is an external
collaborator, passed as a function; none models the call raising. -/
def make_response (engine : GenCall → Option String) (user_prompt : String) : Option String :=
  engine (makeResponseCall user_prompt)

/-- One input line after json.loads: none when the line fails to parse or is
not an object of the record schema's shape, otherwise the object's fields
(json keeps the last occurrence of a repeated key, see dictGet). -/
abbrev InLine := Option (List (String × String))

/-- item[key] on a dict decoded by json.loads: when a key occurs several
times in the source text the last occurrence wins, and a missing key is a
KeyError, modelled by none. -/
def dictGet (k : String) : List (String × String) → Option String
  | [] => none
  | (k', v) :: rest =>
    match dictGet k rest with
    | some v' => some v'
    | none => if k' = k then some v else none

/-- The uncaught exception that terminates a run of main, with the ordinal
(0-based) of the record that raised it. -/
inductive RunError where
  | jsonError (ordinal : Nat)
  | keyError (ordinal : Nat)
  | genError (ordinal : Nat)
deriving DecidableEq

/-- One operation on the output sink: opening with mode "w" truncates,
out.write appends one line to the stream buffer, and closing the file at the
end of the with-block flushes the buffer. -/
inductive SinkOp where
  | truncate
  | write (line : String)
  | flush
deriving DecidableEq

/-- What a run of main does: the GPTResearcher calls it makes, the output
sink operations it performs, and the uncaught exception it ends with, if
any (none = the loop drained the input normally). -/
structure RunResult where
  calls : List GenCall
  ops : List SinkOp
  fail : Option RunError
deriving DecidableEq

/-- The output line main writes for one completed record:
json.dumps of the two-field dict, then the appended newline. -/
def outLine (p resp : String) : String :=
  encodeObj [("prompt", p), ("response", resp)] ++ "\x0a"

/-- The for-loop of main over the remaining input lines, carrying the ordinal
of the next record.  A line that json.loads cannot decode to a record object,
a record without a "prompt" key, or an engine call that raises, aborts the
loop with the corresponding uncaught exception; a completed record appends
its output line before the loop advances. -/
def runLoop (engine : GenCall → Option String) : Nat → List InLine → RunResult
  | _, [] => ⟨[], [], none⟩
  | i, none :: _ => ⟨[], [], some (.jsonError i)⟩
  | i, some fields :: rest =>
    match dictGet "prompt" fields with
    | none => ⟨[], [], some (.keyError i)⟩
    | some p =>
      match make_response engine p with
      | none => ⟨[makeResponseCall p], [], some (.genError i)⟩
      | some resp =>
        let r := runLoop engine (i + 1) rest
        ⟨makeResponseCall p :: r.calls, .write (outLine p resp) :: r.ops, r.fail⟩

/-- The main function of get_response.py: open the output sink with mode "w"
(truncating it), run the loop over the input lines, and close the sink
(which flushes the buffer) on every Python-level exit, normal or
exceptional.  (Named mainRun because Lean reserves the name main.) -/
def mainRun (engine : GenCall → Option String) (items : List InLine) : RunResult :=
  let r := runLoop engine 0 items
  ⟨r.calls, .truncate :: (r.ops ++ [.flush]), r.fail⟩

/-- The fixed relative path main reads its input from (line 22). -/
def mainInputPath : String := "StrongREJECT_train.jsonl"

/-- The fixed relative path main writes its output to (line 23). -/
def mainOutputPath : String := "strongreject_safe_answers.jsonl"

/-- The line of a write operation, nothing for the other sink operations. -/
def writeOf : SinkOp → Option String
  | .write s => some s
  | _ => none

/-- The lines a run handed to out.write, in order. -/
def writtenLines (r : RunResult) : List String :=
  r.ops.filterMap writeOf

/-- Replay a list of sink operations over given initial durable file
contents: truncation empties the file, a write appends its line, a flush
changes nothing about the contents. -/
def fileAfter (initial : List String) : List SinkOp → List String
  | [] => initial
  | .truncate :: ops => fileAfter [] ops
  | .write s :: ops => fileAfter (initial ++ [s]) ops
  | .flush :: ops => fileAfter initial ops

/-- Whether every write in the operation stream is immediately followed by a
flush (the durability discipline the specification asks of the sink). -/
def flushAfterEachWrite : List SinkOp → Bool
  | [] => true
  | .write _ :: rest =>
    match rest with
    | .flush :: _ => flushAfterEachWrite rest
    | _ => false
  | _ :: rest => flushAfterEachWrite rest

/-- The prompt texts of the records that reach a GPTResearcher construction,
in input order: the run submits a record's prompt exactly when every earlier
record parsed, had a "prompt" field and generated successfully, and this
record parsed and has a "prompt" field. -/
def promptsProcessed (engine : GenCall → Option String) : List InLine → List String
  | [] => []
  | none :: _ => []
  | some fields :: rest =>
    match dictGet "prompt" fields with
    | none => []
    | some p =>
      p :: (if (engine (makeResponseCall p)).isSome then promptsProcessed engine rest else [])

/-- The (prompt, response) pairs of the records a run completes, in input
order: the maximal prefix of records that parse, have a "prompt" field and
whose generation call returns. -/
def resultsProduced (engine : GenCall → Option String) : List InLine → List (String × String)
  | [] => []
  | none :: _ => []
  | some fields :: rest =>
    match dictGet "prompt" fields with
    | none => []
    | some p =>
      match engine (makeResponseCall p) with
      | none => []
      | some resp => (p, resp) :: resultsProduced engine rest

/-! ## download.py -/

/-- The dataset identifier constant of download.py. -/
def DATASET_ID : String := "walledai/StrongREJECT"

/-- Python str.split on a one-character separator: split at every occurrence,
keeping empty pieces, so the result is never empty. -/
def pySplitAux (sep : Char) : List Char → List Char → List String
  | [], acc => [String.mk acc.reverse]
  | c :: cs, acc =>
    if c = sep then String.mk acc.reverse :: pySplitAux sep cs []
    else pySplitAux sep cs (c :: acc)

/-- Python s.split(sep)[-1] for a one-character separator. -/
def pySplitLast (sep : Char) (s : String) : String :=
  (pySplitAux sep s.data []).getLastD ""

/-- Python s.replace(old, new) for one-character arguments. -/
def pyReplaceChar (old new : Char) (s : String) : String :=
  String.mk (s.data.map fun c => if c = old then new else c)

/-- An externally visible effect of export_with_datasets: creating the
output directory (mkdir parents=True exist_ok=True), downloading the dataset
split through load_dataset, or writing one output file. -/
inductive ExportEffect where
  | mkdirp (dir : String)
  | loadDataset (dataset_id split : String)
  | writeFile (path : String) (contents : String)
deriving DecidableEq

/-- Outcome of export_with_datasets: the returned out_path, or the message
of the ValueError it raises. -/
inductive ExportRes where
  | ok (path : String)
  | err (msg : String)
deriving DecidableEq

/-- Effects and outcome of one export_with_datasets call. -/
structure ExportOut where
  effects : List ExportEffect
  result : ExportRes
deriving DecidableEq

/-- export_with_datasets, in source order: create out_dir, download the
split, then dispatch on the format, writing one file whose name is built
from the dataset id's last path component and the split (with "/" replaced
by "_"); an unrecognized format raises ValueError only after the directory
and the download.  The datasets library is external: the downloaded rows
and the parquet and csv serializers are parameters. -/
def export_with_datasets
    (loadDS : String → String → List (List (String × String)))
    (toParquetBytes toCsvBytes : List (List (String × String)) → String)
    (dataset_id split out_dir fmt : String) : ExportOut :=
  let pre : List ExportEffect := [.mkdirp out_dir, .loadDataset dataset_id split]
  let ds := loadDS dataset_id split
  let base := pySplitLast '/' dataset_id
  let safe_split := pyReplaceChar '/' '_' split
  if fmt = "jsonl" then
    let out_path := out_dir ++ "/" ++ base ++ "_" ++ safe_split ++ ".jsonl"
    let contents := String.join (ds.map fun ex => encodeObj ex ++ "\x0a")
    ⟨pre ++ [.writeFile out_path contents], .ok out_path⟩
  else if fmt = "parquet" then
    let out_path := out_dir ++ "/" ++ base ++ "_" ++ safe_split ++ ".parquet"
    ⟨pre ++ [.writeFile out_path (toParquetBytes ds)], .ok out_path⟩
  else if fmt = "csv" then
    let out_path := out_dir ++ "/" ++ base ++ "_" ++ safe_split ++ ".csv"
    ⟨pre ++ [.writeFile out_path (toCsvBytes ds)], .ok out_path⟩
  else
    ⟨pre, .err ("Unsupported format: " ++ fmt ++ ". Choose from: jsonl, parquet, csv.")⟩

/-- The exported file's name as a function of dataset id, split and format
alone (for the three supported formats the file extension is the format
name itself). -/
def exportFileName (dataset_id split fmt : String) : String :=
  pySplitLast '/' dataset_id ++ "_" ++ pyReplaceChar '/' '_' split ++ "." ++ fmt

/-- The exported file's contents as a function of the external collaborators
(the downloaded rows and the binary serializers) and of dataset id, split and
format alone — the output directory plays no part in them. -/
def exportContents
    (loadDS : String → String → List (List (String × String)))
    (toParquetBytes toCsvBytes : List (List (String × String)) → String)
    (dataset_id split fmt : String) : String :=
  if fmt = "jsonl" then
    String.join ((loadDS dataset_id split).map fun ex => encodeObj ex ++ "\x0a")
  else if fmt = "parquet" then toParquetBytes (loadDS dataset_id split)
  else toCsvBytes (loadDS dataset_id split)

/-- Whether an effect list contains a file write. -/
def effectsHaveWrite (l : List ExportEffect) : Bool :=
  l.any fun e =>
    match e with
    | .writeFile _ _ => true
    | _ => false

/-- The default of download.py's --out flag: Path.cwd() / "StrongREJECT". -/
def defaultOutDir (cwd : String) : String := cwd ++ "/StrongREJECT"

/-! ## Reading a sink line back (json.loads on one output line)

The decoder below models reading one line of the output sink back with
json.loads: a single object whose two fields are JSON strings, in the exact
shape json.dumps emits.  It succeeds only when the keys are exactly
"prompt" and "response", in that order. -/

/-- Value of one hexadecimal digit, as json.loads accepts it. -/
def hexVal (c : Char) : Option Nat :=
  if 48 ≤ c.toNat ∧ c.toNat ≤ 57 then some (c.toNat - 48)
  else if 97 ≤ c.toNat ∧ c.toNat ≤ 102 then some (c.toNat - 87)
  else if 65 ≤ c.toNat ∧ c.toNat ≤ 70 then some (c.toNat - 55)
  else none

/-- Scan a JSON string body after its opening quote: return the decoded
characters and the remaining input after the closing quote.  Backslash
escapes are decoded, a raw control character is rejected (json.loads strict
mode), and a \u escape decodes its four hex digits (the model stops short of
surrogate pairs, which no dumps output of this program contains). -/
def unescapeAux : List Char → Option (List Char × List Char)
  | [] => none
  | c :: rest =>
    if c = '"' then some ([], rest)
    else if c = '\\' then
      match rest with
      | [] => none
      | e :: r =>
        if e = '"' then (unescapeAux r).map fun st => ('"' :: st.1, st.2)
        else if e = '\\' then (unescapeAux r).map fun st => ('\\' :: st.1, st.2)
        else if e = '/' then (unescapeAux r).map fun st => ('/' :: st.1, st.2)
        else if e = 'b' then (unescapeAux r).map fun st => ('\x08' :: st.1, st.2)
        else if e = 'f' then (unescapeAux r).map fun st => ('\x0c' :: st.1, st.2)
        else if e = 'n' then (unescapeAux r).map fun st => ('\x0a' :: st.1, st.2)
        else if e = 'r' then (unescapeAux r).map fun st => ('\x0d' :: st.1, st.2)
        else if e = 't' then (unescapeAux r).map fun st => ('\x09' :: st.1, st.2)
        else if e = 'u' then
          match r with
          | d1 :: d2 :: d3 :: d4 :: r2 =>
            match hexVal d1, hexVal d2, hexVal d3, hexVal d4 with
            | some h1, some h2, some h3, some h4 =>
              let n := ((h1 * 16 + h2) * 16 + h3) * 16 + h4
              if n < 0xd800 then (unescapeAux r2).map fun st => (Char.ofNat n :: st.1, st.2)
              else none
            | _, _, _, _ => none
          | _ => none
        else none
    else if c.toNat < 0x20 then none
    else (unescapeAux rest).map fun st => (c :: st.1, st.2)

/-- Parse one serialized JSON string at the head of the input. -/
def parseStrL : List Char → Option (List Char × List Char)
  | [] => none
  | c :: r => if c = '"' then unescapeAux r else none

/-- Expect the two given characters at the head of the input. -/
def expectL (x y : Char) : List Char → Option (List Char)
  | a :: b :: r => if a = x then if b = y then some r else none else none
  | _ => none

/-- Accept the end of an output line: the closing brace, optionally followed
by the newline the sink appends, and nothing else. -/
def endCheck : List Char → Option Unit
  | [c] => if c = '\x7d' then some () else none
  | [c, d] => if c = '\x7d' then if d = '\x0a' then some () else none else none
  | _ => none

/-- Read one output-sink line back: a JSON object of exactly the two string
fields "prompt" and "response", in dumps's field order and spacing, yielding
the two decoded field values. -/
def decodeResultLine (line : String) : Option (String × String) :=
  match line.data with
  | [] => none
  | c :: r0 =>
    if c = '\x7b' then
      (parseStrL r0).bind fun st1 =>
      (expectL ':' ' ' st1.2).bind fun r2 =>
      (parseStrL r2).bind fun st2 =>
      (expectL ',' ' ' st2.2).bind fun r4 =>
      (parseStrL r4).bind fun st3 =>
      (expectL ':' ' ' st3.2).bind fun r6 =>
      (parseStrL r6).bind fun st4 =>
      (endCheck st4.2).bind fun _ =>
      if String.mk st1.1 = "prompt" then
        if String.mk st3.1 = "response" then some (String.mk st2.1, String.mk st4.1)
        else none
      else none
    else none

/-! ## Round trip of the output-sink line encoding -/
theorem hexVal_hexDigitChar (n : Nat) (h : n < 16) : hexVal (hexDigitChar n) = some n := by
  interval_cases n <;> decide

theorem unescape_escape : ∀ (l : List Char) (rest : List Char),
    unescapeAux (l.flatMap escapeChar ++ '"' :: rest) = some (l, rest)
  | [], rest => by
    rw [List.flatMap_nil, List.nil_append, unescapeAux.eq_def]
    simp
  | c :: l, rest => by
    have ih := unescape_escape l rest
    rw [List.flatMap_cons, List.append_assoc]
    by_cases h1 : c = '\\'
    · subst h1
      rw [show escapeChar '\\' = ['\\', '\\'] from rfl, unescapeAux.eq_def]
      simp [ih]
    by_cases h2 : c = '"'
    · subst h2
      rw [show escapeChar '"' = ['\\', '"'] from rfl, unescapeAux.eq_def]
      simp [ih]
    by_cases h3 : c = '\x08'
    · subst h3
      rw [show escapeChar '\x08' = ['\\', 'b'] from rfl, unescapeAux.eq_def]
      simp [ih]
    by_cases h4 : c = '\x09'
    · subst h4
      rw [show escapeChar '\x09' = ['\\', 't'] from rfl, unescapeAux.eq_def]
      simp [ih]
    by_cases h5 : c = '\x0a'
    · subst h5
      rw [show escapeChar '\x0a' = ['\\', 'n'] from rfl, unescapeAux.eq_def]
      simp [ih]
    by_cases h6 : c = '\x0c'
    · subst h6
      rw [show escapeChar '\x0c' = ['\\', 'f'] from rfl, unescapeAux.eq_def]
      simp [ih]
    by_cases h7 : c = '\x0d'
    · subst h7
      rw [show escapeChar '\x0d' = ['\\', 'r'] from rfl, unescapeAux.eq_def]
      simp [ih]
    by_cases h8 : c.toNat < 0x20
    · rw [show escapeChar c =
          ['\\', 'u', '0', '0', hexDigitChar (c.toNat / 16), hexDigitChar (c.toNat % 16)] by
        simp [escapeChar, h1, h2, h3, h4, h5, h6, h7, h8]]
      rw [unescapeAux.eq_def]
      have hd3 : hexVal (hexDigitChar (c.toNat / 16)) = some (c.toNat / 16) :=
        hexVal_hexDigitChar _ (by omega)
      have hd4 : hexVal (hexDigitChar (c.toNat % 16)) = some (c.toNat % 16) :=
        hexVal_hexDigitChar _ (by omega)
      simp [hd3, hd4, show hexVal '0' = some 0 from by decide, ih]
      have hmod : c.toNat / 16 * 16 + c.toNat % 16 = c.toNat := by omega
      rw [hmod, Char.ofNat_toNat]
      exact ⟨by omega, rfl⟩
    · rw [show escapeChar c = [c] by simp [escapeChar, h1, h2, h3, h4, h5, h6, h7, h8]]
      rw [unescapeAux.eq_def]
      simp [h1, h2, h8, ih]

theorem parseStrL_enc (s : String) (rest : List Char) :
    parseStrL (encodeJStringL s ++ rest) = some (s.data, rest) := by
  rw [encodeJStringL]
  rw [show ('"' :: (s.data.flatMap escapeChar ++ ['"'])) ++ rest
      = '"' :: (s.data.flatMap escapeChar ++ '"' :: rest) by simp]
  rw [parseStrL]
  simp [unescape_escape]

theorem expectL_cons (x y : Char) (r : List Char) : expectL x y (x :: y :: r) = some r := by
  simp [expectL]

theorem outLine_data (p r : String) :
    (outLine p r).data
      = '\x7b' :: (encodeJStringL "prompt" ++ (':' :: ' ' :: (encodeJStringL p
        ++ (',' :: ' ' :: (encodeJStringL "response" ++ (':' :: ' ' :: (encodeJStringL r
        ++ ['\x7d', '\x0a']))))))) := by
  simp only [outLine, encodeObj, encodeObjFields, encodeJString, String.data_append]
  simp [String.data]

theorem decode_outLine (p r : String) : decodeResultLine (outLine p r) = some (p, r) := by
  rw [decodeResultLine.eq_def, outLine_data]
  simp only [parseStrL_enc, expectL_cons, Option.bind_some, Option.some_bind]
  simp [endCheck]

/-! ## Helper lemmas about the pipeline -/

theorem framing_eq (p : String) :
    SAFE_PROMPT ++ "\n\n" ++ "User request: " ++ p
      = SAFE_PROMPT ++ "\x0a\x0aUser request: " ++ p := by
  rw [String.append_assoc SAFE_PROMPT "\n\n" "User request: "]
  rw [show ("\n\n" : String) ++ "User request: " = "\x0a\x0aUser request: " from rfl]

theorem runLoop_query_eq (engine : GenCall → Option String) :
    ∀ (i : Nat) (items : List InLine),
      ((runLoop engine i items).calls).map GenCall.query
        = (promptsProcessed engine items).map
            (fun p => SAFE_PROMPT ++ "\n\n" ++ "User request: " ++ p)
  | _, [] => by simp [runLoop, promptsProcessed]
  | _, none :: _ => by simp [runLoop, promptsProcessed]
  | i, some fields :: rest => by
    cases hd : dictGet "prompt" fields with
    | none => simp [runLoop, promptsProcessed, hd]
    | some p =>
      cases he : engine (makeResponseCall p) with
      | none =>
        simp only [runLoop, promptsProcessed, make_response, hd, he]
        simp [makeResponseCall, framing_eq]
      | some resp =>
        have ih := runLoop_query_eq engine (i + 1) rest
        simp only [runLoop, promptsProcessed, make_response, hd, he]
        simp [makeResponseCall, framing_eq, ih]

theorem runLoop_local (engine : GenCall → Option String) :
    ∀ (i : Nat) (items : List InLine),
      (((runLoop engine i items).calls).all fun c => c.report_source == "local") = true
  | _, [] => by simp [runLoop]
  | _, none :: _ => by simp [runLoop]
  | i, some fields :: rest => by
    cases hd : dictGet "prompt" fields with
    | none => simp [runLoop, hd]
    | some p =>
      cases he : engine (makeResponseCall p) with
      | none =>
        simp only [runLoop, make_response, hd, he]
        simp [makeResponseCall]
      | some resp =>
        have ih := runLoop_local engine (i + 1) rest
        simp only [runLoop, make_response, hd, he]
        rw [List.all_cons]
        simp [makeResponseCall, ih]

/-! ## Claim theorems -/

/-- C1: for every record processed, the text passed as the query to the
Generation Client is exactly the fixed safety preamble, then two newlines,
then "User request: ", then the record's prompt text: the queries of the
GPTResearcher calls a run makes are, in order, exactly that framing of the
prompts of the records the run processes. -/
theorem spec_C1 (engine : GenCall → Option String) (items : List InLine) :
    ((mainRun engine items).calls).map GenCall.query
      = (promptsProcessed engine items).map
          (fun p => SAFE_PROMPT ++ "\n\n" ++ "User request: " ++ p) := by
  simpa [mainRun] using runLoop_query_eq engine 0 items

/-- C2: every invocation of the Generation Client made by the pipeline
passes the local-only report-source restriction, never a live or browsing
research mode. -/
theorem spec_C2 (engine : GenCall → Option String) (items : List InLine) :
    (((mainRun engine items).calls).all fun c => c.report_source == "local") = true := by
  simpa [mainRun] using runLoop_local engine 0 items

theorem filterMap_writeOf_map {α : Type} (f : α → String) (l : List α) :
    List.filterMap writeOf (l.map fun a => SinkOp.write (f a)) = l.map f := by
  induction l with
  | nil => simp
  | cons a l ih => simp [writeOf, ih]

theorem filterMap_writeOf_comp {α : Type} (f : α → String) (l : List α) :
    List.filterMap (writeOf ∘ fun a => SinkOp.write (f a)) l = l.map f := by
  induction l with
  | nil => simp
  | cons a l ih => simp [writeOf, ih]

theorem runLoop_success (engine : GenCall → Option String)
    (heng : ∀ c, (engine c).isSome) :
    ∀ (i : Nat) (items : List InLine) (prompts : List String),
      items.map (fun it => it.bind (dictGet "prompt")) = prompts.map some →
      runLoop engine i items =
        ⟨prompts.map makeResponseCall,
         prompts.map (fun p => .write (outLine p ((engine (makeResponseCall p)).getD ""))),
         none⟩
  | _, [], prompts, h => by
    cases prompts with
    | nil => simp [runLoop]
    | cons q qs => simp at h
  | _, none :: rest, prompts, h => by
    cases prompts with
    | nil => simp at h
    | cons q qs => simp at h
  | i, some fields :: rest, prompts, h => by
    cases prompts with
    | nil => simp at h
    | cons q qs =>
      simp only [List.map_cons, Option.some_bind, List.cons.injEq] at h
      obtain ⟨h1, h2⟩ := h
      obtain ⟨resp, he⟩ := Option.isSome_iff_exists.mp (heng (makeResponseCall q))
      have ih := runLoop_success engine heng (i + 1) rest qs h2
      simp only [runLoop, make_response, h1, he, ih]
      simp [he]

/-- C3: for an input of N well-formed prompt records (every line decodes to
an object with a "prompt" field), a run in which every Generation Client
call succeeds terminates normally and writes exactly N result lines to the
output sink, in input order, each carrying the record's prompt and the
response the engine returned for that record's framed query. -/
theorem spec_C3 (engine : GenCall → Option String) (items : List InLine)
    (prompts : List String)
    (hwf : items.map (fun it => it.bind (dictGet "prompt")) = prompts.map some)
    (heng : ∀ c, (engine c).isSome) :
    (mainRun engine items).fail = none
    ∧ (writtenLines (mainRun engine items)).length = items.length
    ∧ writtenLines (mainRun engine items)
        = prompts.map (fun p => outLine p ((engine (makeResponseCall p)).getD "")) := by
  have h := runLoop_success engine heng 0 items prompts hwf
  have hlen : items.length = prompts.length := by
    simpa using congrArg List.length hwf
  refine ⟨?_, ?_, ?_⟩
  · simp [mainRun, h]
  · simp [writtenLines, mainRun, h, writeOf, filterMap_writeOf_map, filterMap_writeOf_comp,
      hlen]
  · simp [writtenLines, mainRun, h, writeOf, filterMap_writeOf_map, filterMap_writeOf_comp]

/-- Witness for C3: a concrete two-record well-formed input, with an engine
that answers "ok" to everything. -/
theorem spec_C3_witness :
    (mainRun (fun _ => some "ok")
        [some [("prompt", "a")], some [("x", "1"), ("prompt", "b")]]).fail = none
    ∧ (writtenLines (mainRun (fun _ => some "ok")
        [some [("prompt", "a")], some [("x", "1"), ("prompt", "b")]])).length = 2
    ∧ writtenLines (mainRun (fun _ => some "ok")
        [some [("prompt", "a")], some [("x", "1"), ("prompt", "b")]])
        = [outLine "a" "ok", outLine "b" "ok"] :=
  spec_C3 (fun _ => some "ok")
    [some [("prompt", "a")], some [("x", "1"), ("prompt", "b")]]
    ["a", "b"] (by decide) (fun _ => rfl)

theorem runLoop_keyError (engine : GenCall → Option String)
    (heng : ∀ c, (engine c).isSome) (fields : List (String × String))
    (hbad : dictGet "prompt" fields = none) :
    ∀ (i : Nat) (pre rest : List InLine),
      (∀ it ∈ pre, (it.bind (dictGet "prompt")).isSome) →
      ((runLoop engine i (pre ++ some fields :: rest)).ops.filterMap writeOf).length
          = pre.length
      ∧ (runLoop engine i (pre ++ some fields :: rest)).fail
          = some (.keyError (i + pre.length))
  | i, [], rest, _ => by
    simp only [List.nil_append]
    simp [runLoop, hbad]
  | i, it :: pre, rest, hpre => by
    have hh := hpre it (by simp)
    cases it with
    | none => simp at hh
    | some f =>
      simp only [Option.some_bind] at hh
      obtain ⟨p, hp⟩ := Option.isSome_iff_exists.mp hh
      obtain ⟨resp, he⟩ := Option.isSome_iff_exists.mp (heng (makeResponseCall p))
      have ih := runLoop_keyError engine heng fields hbad (i + 1) pre rest
        (fun x hx => hpre x (by simp [hx]))
      rw [List.cons_append]
      simp only [runLoop, make_response, hp, he]
      constructor
      · simp [writeOf, ih.1]
      · simp only [ih.2, List.length_cons, Option.some.injEq, RunError.keyError.injEq]
        omega

/-- C4 (amended): the pipeline has no configured per-record error policy;
the first record without a "prompt" field aborts the whole run with an
uncaught KeyError naming that record's ordinal, after having written one
result line for each record before it and none for it or any later record.
In particular, for five records whose third lacks "prompt", the run emits
exactly two result records and terminates with the error at ordinal 2. -/
theorem spec_C4 (engine : GenCall → Option String) (pre : List InLine)
    (fields : List (String × String)) (rest : List InLine)
    (hpre : ∀ it ∈ pre, (it.bind (dictGet "prompt")).isSome)
    (heng : ∀ c, (engine c).isSome)
    (hbad : dictGet "prompt" fields = none) :
    (writtenLines (mainRun engine (pre ++ some fields :: rest))).length = pre.length
    ∧ (mainRun engine (pre ++ some fields :: rest)).fail
        = some (.keyError pre.length) := by
  have h := runLoop_keyError engine heng fields hbad 0 pre rest hpre
  constructor
  · simpa [writtenLines, mainRun, writeOf] using h.1
  · simpa [mainRun] using h.2

/-- Witness for C4 at the five-record input of the specification's example:
record 3 (ordinal 2) lacks a "prompt" field. -/
theorem spec_C4_witness :
    (writtenLines (mainRun (fun _ => some "ok")
        [some [("prompt", "q1")], some [("prompt", "q2")], some [("id", "3")],
         some [("prompt", "q4")], some [("prompt", "q5")]])).length = 2
    ∧ (mainRun (fun _ => some "ok")
        [some [("prompt", "q1")], some [("prompt", "q2")], some [("id", "3")],
         some [("prompt", "q4")], some [("prompt", "q5")]]).fail
        = some (.keyError 2) :=
  spec_C4 (fun _ => some "ok")
    [some [("prompt", "q1")], some [("prompt", "q2")]] [("id", "3")]
    [some [("prompt", "q4")], some [("prompt", "q5")]]
    (by decide) (fun _ => rfl) (by decide)

/-- Counterexample for C4 as stated: on the five-record input whose third
record lacks a "prompt" field the run writes two result records — not the
four a log-and-skip policy would emit — and dies with an uncaught error, so
no configurable skip mode exists. -/
theorem spec_C4_cex :
    (writtenLines (mainRun (fun _ => some "ok")
        [some [("prompt", "q1")], some [("prompt", "q2")], some [("id", "3")],
         some [("prompt", "q4")], some [("prompt", "q5")]])).length = 2
    ∧ ((writtenLines (mainRun (fun _ => some "ok")
        [some [("prompt", "q1")], some [("prompt", "q2")], some [("id", "3")],
         some [("prompt", "q4")], some [("prompt", "q5")]])).length == 4) = false
    ∧ ((mainRun (fun _ => some "ok")
        [some [("prompt", "q1")], some [("prompt", "q2")], some [("id", "3")],
         some [("prompt", "q4")], some [("prompt", "q5")]]).fail).isSome = true := by
  decide

theorem runLoop_ops_writes (engine : GenCall → Option String) :
    ∀ (i : Nat) (items : List InLine),
      (runLoop engine i items).ops
        = ((runLoop engine i items).ops.filterMap writeOf).map SinkOp.write
  | _, [] => by simp [runLoop]
  | _, none :: _ => by simp [runLoop]
  | i, some fields :: rest => by
    cases hd : dictGet "prompt" fields with
    | none => simp [runLoop, hd]
    | some p =>
      cases he : engine (makeResponseCall p) with
      | none =>
        simp only [runLoop, make_response, hd, he]
        simp
      | some resp =>
        have ih := runLoop_ops_writes engine (i + 1) rest
        simp only [runLoop, make_response, hd, he]
        simp only [List.filterMap_cons, writeOf, List.map_cons]
        exact congrArg (SinkOp.write (outLine p resp) :: ·) ih

theorem fileAfter_writes : ∀ (lines acc : List String),
    fileAfter acc (lines.map SinkOp.write ++ [SinkOp.flush]) = acc ++ lines
  | [], acc => by simp [fileAfter]
  | l :: ls, acc => by
    simp only [List.map_cons, List.cons_append, fileAfter, List.append_eq]
    rw [fileAfter_writes ls (acc ++ [l])]
    simp

/-- C5 (amended): a run's sink operations are exactly the truncating open,
then one write per completed record in input order, then a single flush when
the file is closed at the end of the run — no flush follows an individual
write, so an interruption before the close can lose every buffered record,
not merely the in-flight one. -/
theorem spec_C5 (engine : GenCall → Option String) (items : List InLine) :
    (mainRun engine items).ops
      = .truncate :: ((writtenLines (mainRun engine items)).map SinkOp.write
          ++ [.flush]) := by
  have h := runLoop_ops_writes engine 0 items
  have hw : writtenLines (mainRun engine items)
      = (runLoop engine 0 items).ops.filterMap writeOf := by
    simp [writtenLines, mainRun, writeOf]
  rw [hw]
  show SinkOp.truncate :: ((runLoop engine 0 items).ops ++ [SinkOp.flush]) = _
  rw [← h]

/-- Counterexample for C5 as stated: on a two-record input, the sink
operation stream has two consecutive writes with no flush between them, so
the sink is not flushed after each write. -/
theorem spec_C5_cex :
    flushAfterEachWrite (mainRun (fun _ => some "ok")
      [some [("prompt", "a")], some [("prompt", "b")]]).ops = false := by
  decide

/-- C6 (amended): re-running the pipeline opens the output sink with mode
"w", which truncates it, so the file it leaves behind is exactly the lines
of the new run, whatever was durable before; previously written lines are
preserved only as far as the new run happens to reproduce them. -/
theorem spec_C6 (prior : List String) (engine : GenCall → Option String)
    (items : List InLine) :
    fileAfter prior (mainRun engine items).ops = writtenLines (mainRun engine items) := by
  have h := runLoop_ops_writes engine 0 items
  have hw : writtenLines (mainRun engine items)
      = (runLoop engine 0 items).ops.filterMap writeOf := by
    simp [writtenLines, mainRun, writeOf]
  show fileAfter prior
      (SinkOp.truncate :: ((runLoop engine 0 items).ops ++ [SinkOp.flush])) = _
  rw [fileAfter, h, fileAfter_writes, hw]
  simp

/-- Counterexample for C6 as stated: a run interrupted after its one record
leaves one durable line; re-running against an engine that now answers
differently replaces that first line with a different one, so the first K
lines are not left untouched and byte-identical. -/
theorem spec_C6_cex :
    ((fileAfter
        (fileAfter [] (mainRun (fun _ => some "x") [some [("prompt", "a")]]).ops)
        (mainRun (fun _ => some "y") [some [("prompt", "a")]]).ops).take 1
      == (fileAfter [] (mainRun (fun _ => some "x")
            [some [("prompt", "a")]]).ops).take 1) = false := by
  decide

/-- C7 (amended): calling the exporter with a format outside the supported
set raises the ValueError naming the format and writes no output file — but
only after the target directory has been created and the dataset fetched,
which both precede the format check in the function body. -/
theorem spec_C7
    (loadDS : String → String → List (List (String × String)))
    (toParquetBytes toCsvBytes : List (List (String × String)) → String)
    (dataset_id split out_dir fmt : String)
    (hfmt : ¬(fmt = "jsonl" ∨ fmt = "parquet" ∨ fmt = "csv")) :
    (export_with_datasets loadDS toParquetBytes toCsvBytes
        dataset_id split out_dir fmt).result
      = .err ("Unsupported format: " ++ fmt ++ ". Choose from: jsonl, parquet, csv.")
    ∧ effectsHaveWrite (export_with_datasets loadDS toParquetBytes toCsvBytes
        dataset_id split out_dir fmt).effects = false
    ∧ (export_with_datasets loadDS toParquetBytes toCsvBytes
        dataset_id split out_dir fmt).effects
      = [.mkdirp out_dir, .loadDataset dataset_id split] := by
  push_neg at hfmt
  obtain ⟨h1, h2, h3⟩ := hfmt
  simp [export_with_datasets, h1, h2, h3, effectsHaveWrite]

/-- Witness for C7 at the format "xml" of the specification's example. -/
theorem spec_C7_witness :
    (export_with_datasets (fun _ _ => []) (fun _ => "") (fun _ => "")
        DATASET_ID "train" "out" "xml").result
      = .err ("Unsupported format: " ++ "xml" ++ ". Choose from: jsonl, parquet, csv.")
    ∧ effectsHaveWrite (export_with_datasets (fun _ _ => []) (fun _ => "") (fun _ => "")
        DATASET_ID "train" "out" "xml").effects = false
    ∧ (export_with_datasets (fun _ _ => []) (fun _ => "") (fun _ => "")
        DATASET_ID "train" "out" "xml").effects
      = [.mkdirp "out", .loadDataset DATASET_ID "train"] :=
  spec_C7 (fun _ _ => []) (fun _ => "") (fun _ => "")
    DATASET_ID "train" "out" "xml" (by decide)

/-- Counterexample for C7 as stated: requesting format "xml" does raise the
unsupported-format error, but the effect trace before it is not empty — the
directory creation and the remote dataset fetch have already happened, so
the failure is not "before any I/O". -/
theorem spec_C7_cex :
    ((export_with_datasets (fun _ _ => []) (fun _ => "") (fun _ => "")
        DATASET_ID "train" "out" "xml").effects
      == ([] : List ExportEffect)) = false
    ∧ (export_with_datasets (fun _ _ => []) (fun _ => "") (fun _ => "")
        DATASET_ID "train" "out" "xml").effects
      = [.mkdirp "out", .loadDataset DATASET_ID "train"] := by
  decide

theorem runLoop_lines (engine : GenCall → Option String) :
    ∀ (i : Nat) (items : List InLine),
      (runLoop engine i items).ops.filterMap writeOf
        = (resultsProduced engine items).map (fun pr => outLine pr.1 pr.2)
  | _, [] => by simp [runLoop, resultsProduced]
  | _, none :: _ => by simp [runLoop, resultsProduced]
  | i, some fields :: rest => by
    cases hd : dictGet "prompt" fields with
    | none => simp [runLoop, resultsProduced, hd]
    | some p =>
      cases he : engine (makeResponseCall p) with
      | none =>
        simp only [runLoop, resultsProduced, make_response, hd, he]
        simp
      | some resp =>
        have ih := runLoop_lines engine (i + 1) rest
        simp only [runLoop, resultsProduced, make_response, hd, he]
        simp [writeOf, ih]

/-- C8: every line a run writes to the output sink is the UTF-8 JSON
encoding of an object with exactly the two fields "prompt" and "response"
for a completed record (one line per completed record, in order), and
reading any such line back with the decoder yields the original prompt and
response, field for field. -/
theorem spec_C8 (engine : GenCall → Option String) (items : List InLine) :
    writtenLines (mainRun engine items)
      = (resultsProduced engine items).map (fun pr => outLine pr.1 pr.2)
    ∧ ∀ p resp : String, decodeResultLine (outLine p resp) = some (p, resp) := by
  constructor
  · have h := runLoop_lines engine 0 items
    simpa [writtenLines, mainRun, writeOf] using h
  · exact fun p resp => decode_outLine p resp

/-- C9: for every supported format the exporter performs exactly the
directory creation, the dataset download and one file write, whose path is
the output directory joined with a file name that is a function of dataset
id, split and format alone, and whose contents are a function of the
collaborators and of dataset id, split and format alone — so repeated runs
with the same inputs overwrite the same path with byte-identical output. -/
theorem spec_C9
    (loadDS : String → String → List (List (String × String)))
    (toParquetBytes toCsvBytes : List (List (String × String)) → String)
    (dataset_id split out_dir fmt : String)
    (hfmt : fmt = "jsonl" ∨ fmt = "parquet" ∨ fmt = "csv") :
    export_with_datasets loadDS toParquetBytes toCsvBytes dataset_id split out_dir fmt
      = ⟨[.mkdirp out_dir, .loadDataset dataset_id split,
          .writeFile (out_dir ++ "/" ++ exportFileName dataset_id split fmt)
            (exportContents loadDS toParquetBytes toCsvBytes dataset_id split fmt)],
         .ok (out_dir ++ "/" ++ exportFileName dataset_id split fmt)⟩ := by
  rcases hfmt with h | h | h <;> subst h <;>
    simp [export_with_datasets, exportFileName, exportContents, String.append_assoc,
      show ("." : String) ++ "jsonl" = ".jsonl" from rfl,
      show ("." : String) ++ "parquet" = ".parquet" from rfl,
      show ("." : String) ++ "csv" = ".csv" from rfl]

/-- Witness for C9 at the format "jsonl" with concrete collaborators. -/
theorem spec_C9_witness :
    export_with_datasets (fun _ _ => [[("prompt", "p")]]) (fun _ => "") (fun _ => "")
        DATASET_ID "train" "od" "jsonl"
      = ⟨[.mkdirp "od", .loadDataset DATASET_ID "train",
          .writeFile ("od" ++ "/" ++ exportFileName DATASET_ID "train" "jsonl")
            (exportContents (fun _ _ => [[("prompt", "p")]]) (fun _ => "") (fun _ => "")
              DATASET_ID "train" "jsonl")],
         .ok ("od" ++ "/" ++ exportFileName DATASET_ID "train" "jsonl")⟩ :=
  spec_C9 (fun _ _ => [[("prompt", "p")]]) (fun _ => "") (fun _ => "")
    DATASET_ID "train" "od" "jsonl" (Or.inl rfl)

/-- C10: the orchestrator always reads the fixed relative path
"StrongREJECT_train.jsonl" and always writes the fixed relative path
"strongreject_safe_answers.jsonl"; the exporter's default output directory
is "StrongREJECT" under the working directory, and the default export of
the train split lands at a different path than the orchestrator reads, so
composing the two requires placing the input file at that exact path. -/
theorem spec_C10 :
    mainInputPath = "StrongREJECT_train.jsonl"
    ∧ mainOutputPath = "strongreject_safe_answers.jsonl"
    ∧ exportFileName DATASET_ID "train" "jsonl" = mainInputPath
    ∧ (∀ cwd : String, defaultOutDir cwd = cwd ++ "/StrongREJECT")
    ∧ (∀ cwd : String,
        ((defaultOutDir cwd ++ "/" ++ exportFileName DATASET_ID "train" "jsonl")
          == cwd ++ "/" ++ mainInputPath) = false) := by
  have hname : exportFileName DATASET_ID "train" "jsonl" = "StrongREJECT_train.jsonl" := by
    decide
  refine ⟨rfl, rfl, hname, fun _ => rfl, fun cwd => ?_⟩
  rw [beq_eq_false_iff_ne]
  intro hcontra
  have hlen := congrArg String.length hcontra
  rw [hname] at hlen
  simp only [defaultOutDir, mainInputPath, String.length_append] at hlen
  rw [show ("/StrongREJECT" : String).length = 13 from rfl,
    show ("/" : String).length = 1 from rfl,
    show ("StrongREJECT_train.jsonl" : String).length = 24 from rfl] at hlen
  omega
